import Mathlib

/-!
Shallow embedding of the Secux hardware-wallet keyring
(`src/keyring/eth-secux-keyring.js`).  JavaScript objects become
structures, promise resolution and rejection become `Except`, and the
external cryptographic collaborators (the `ethereumjs-util` checksum and
sender recovery, the HD derivation of the `hdkey` package, the `@secux`
device SDK) are abstracted as function parameters, since the repository
treats them as opaque capabilities.
-/

namespace Secux

/-- JavaScript error values thrown or used to reject a promise:
`error m` models `new Error(m)`, while `typeError m` models the runtime
`TypeError` raised by a property access or assignment on `null`. -/
inductive JsErr where
  | error (msg : String)
  | typeError (msg : String)
  deriving DecidableEq

/-- JavaScript `Error.prototype.toString`, as used by the rejection
handlers when they evaluate `e.toString()`. -/
def jsErrToString : JsErr → String
  | .error m => "Error: " ++ m
  | .typeError m => "TypeError: " ++ m

/-- JavaScript `x || d` for an optionally present string (`undefined` and
the empty string are falsy). -/
def jsOrStr (x : Option String) (d : String) : String :=
  match x with
  | none => d
  | some s => if s = "" then d else s

/-- JavaScript `x || d` for an optionally present number (`undefined` and
`0` are falsy). -/
def jsOrInt (x : Option Int) (d : Int) : Int :=
  match x with
  | none => d
  | some v => if v = 0 then d else v

/-- Source line 7: the fixed base derivation path. -/
def hdPathString : String := "m/44\x27/60\x27/0\x27/0/0"

/-- Source line 9: the path base used by derivation. -/
def pathBase : String := "m"

/-- Source line 10: bound of the linear address scan. -/
def MAX_INDEX : Nat := 1000

/-- Source line 11: fixed inter-popup delay in milliseconds. -/
def DELAY_BETWEEN_POPUPS : Nat := 1000

/-- Cached public key material (the `hdkey` node stored in `this.hdk`).
`addrAt pb i` abstracts the composite
`publicToAddress(hdk.derive(pb + "/" + i).publicKey, true).toString("hex")`
used by `_addressFromIndex`: an opaque deterministic function of the key
material, the path base and the index, producing a bare hex address. -/
structure HDK where
  publicKey : Option String
  chainCode : Option String
  addrAt : String → Nat → String

/-- Mutable session state of the keyring object (constructor lines 18–29).
The JS `paths` object is modeled as an association list. -/
structure KState where
  hdPath : String
  accounts : List String
  page : Int
  perPage : Int
  unlockedAccount : Nat
  paths : List (String × Nat)
  hdk : Option HDK

/-- Plain structural snapshot consumed and produced by
`serialize`/`deserialize`: a raw `opts` object whose fields may all be
absent. -/
structure Snapshot where
  hdPath : Option String := none
  accounts : Option (List String) := none
  page : Option Int := none
  paths : Option (List (String × Nat)) := none
  perPage : Option Int := none
  unlockedAccount : Option Nat := none

/-- Source lines 31–40: `serialize` snapshots the six bookkeeping fields. -/
def serialize (st : KState) : Snapshot :=
  { hdPath := some st.hdPath
    accounts := some st.accounts
    page := some st.page
    paths := some st.paths
    perPage := some st.perPage
    unlockedAccount := some st.unlockedAccount }

/-- Source lines 42–48: `deserialize` restores only `hdPath`, `accounts`,
`page` and `perPage` (with JS `||` defaulting); it does not touch
`paths`, `unlockedAccount` or `hdk`.  A JS array is truthy even when
empty, so `opts.accounts || []` keeps a present empty list. -/
def deserialize (st : KState) (opts : Snapshot) : KState :=
  { st with
    hdPath := jsOrStr opts.hdPath hdPathString
    accounts := opts.accounts.getD []
    page := jsOrInt opts.page 0
    perPage := jsOrInt opts.perPage 5 }

/-- Field initialization performed by the constructor (lines 20–27) before
it calls `this.deserialize(opts)`; `hdPath` is not assigned there, but
`deserialize` always overwrites it, so the placeholder is irrelevant. -/
def initialState : KState :=
  { hdPath := ""
    accounts := []
    page := 0
    perPage := 5
    unlockedAccount := 0
    paths := []
    hdk := none }

/-- `new SecuxKeyring(opts)`: initialize the fields, then deserialize. -/
def newKeyring (opts : Snapshot) : KState :=
  deserialize initialState opts

/-- Round trip of spec §4.4: hydrate a fresh keyring from a serialized
session. -/
def roundTrip (st : KState) : KState :=
  newKeyring (serialize st)

/-- Payload of a fulfilled `device.getXPublickey` response. -/
structure XPubPayload where
  publicKey : String
  chainCode : String
  error : Option String
  deriving DecidableEq

/-- Outcome of the awaited `device.getXPublickey(hdPath)` promise:
fulfilled with `{success, payload}`, or rejected (transport or
communication failure, possibly with a `null` reason). -/
inductive XPubResult where
  | fulfilled (success : Bool) (payload : XPubPayload)
  | rejectedTransport (e : Option JsErr)
  deriving DecidableEq

/-- Source lines 50–52: `Boolean(this.hdk && this.hdk.publicKey)`. -/
def isUnlocked (st : KState) : Bool :=
  match st.hdk with
  | none => false
  | some k => k.publicKey.isSome

/-- TypeError message of the assignment `this.hdk.publicKey = ...`
performed while `this.hdk` is `null` (the `hdkey` import on line 3 is
commented out and `hdk` is never initialized to an object). -/
def nullSetPublicKeyMsg : String :=
  "Cannot set properties of null (setting \x27publicKey\x27)"

/-- TypeError message of the call `this.hdk.derive(...)` on `null`. -/
def nullDeriveMsg : String :=
  "Cannot read properties of null (reading \x27derive\x27)"

/-- Source lines 54–77: `unlock`.  If already unlocked, resolve
immediately without a device call.  Otherwise await the handshake: on a
successful response the code assigns `this.hdk.publicKey`; since
`this.hdk` is `null` this throws a TypeError inside the `.then` callback,
which the chained `.catch` wraps via `new Error(e.toString())`.  On a
device-reported failure it rejects with the payload's message (or the
generic fallback), and on a transport rejection it wraps the reason's
string description (or the generic fallback). -/
def unlock (st : KState) (resp : XPubResult) : Except JsErr (String × KState) :=
  if isUnlocked st then
    .ok ("already unlocked", st)
  else
    match resp with
    | .fulfilled success payload =>
      if success then
        match st.hdk with
        | none =>
          .error (.error (jsOrStr (some (jsErrToString (.typeError nullSetPublicKeyMsg)))
            "Unknown error"))
        | some k =>
          .ok ("just unlocked",
            { st with hdk := some { k with
                publicKey := some payload.publicKey
                chainCode := some payload.chainCode } })
      else
        .error (.error (jsOrStr payload.error "Unknown error"))
    | .rejectedTransport e =>
      .error (.error (jsOrStr (e.map jsErrToString) "Unknown error"))

/-- Number of `device.getXPublickey` handshake calls a single `unlock()`
issues from state `st` (lines 55–59: none when already unlocked,
otherwise exactly one). -/
def unlockDeviceCalls (st : KState) : Nat :=
  if isUnlocked st then 0 else 1

/-- Source lines 285–291: `_addressFromIndex(pb, i)` derives the child key
at `pb/i` and checksums its `0x`-prefixed hex address; calling
`this.hdk.derive` while `hdk` is `null` throws a TypeError.  `cs`
abstracts `ethUtil.toChecksumAddress`. -/
def addressFromIndex (cs : String → String) (st : KState) (pb : String) (i : Nat) :
    Except JsErr String :=
  match st.hdk with
  | none => .error (.typeError nullDeriveMsg)
  | some k => .ok (cs ("0x" ++ k.addrAt pb i))

/-- The bounded for-loop of `_pathFromAddress` (lines 297–302): starting
at index `i` with `fuel` iterations remaining, return the first index
whose derived checksummed address equals `target`. -/
def scanForIndex (cs : String → String) (k : HDK) (target : String) :
    Nat → Nat → Option Nat
  | _, 0 => none
  | i, fuel + 1 =>
    if target = cs ("0x" ++ k.addrAt pathBase i) then some i
    else scanForIndex cs k target (i + 1) fuel

/-- Source lines 293–309: `_pathFromAddress` checksum-normalizes the
input, looks it up in `paths`, and on a miss runs the bounded scan of
indices `0, …, MAX_INDEX - 1`; if the scan also misses it throws
`Error("Unknown address")`.  With `hdk = null` the very first loop
iteration throws a TypeError (`MAX_INDEX` is the positive constant 1000).
The method performs no assignment to any session field. -/
def pathFromAddress (cs : String → String) (st : KState) (address : String) :
    Except JsErr String :=
  let checksummedAddress := cs address
  match st.paths.lookup checksummedAddress with
  | some index => .ok (st.hdPath ++ "/" ++ toString index)
  | none =>
    match st.hdk with
    | none => .error (.typeError nullDeriveMsg)
    | some k =>
      match scanForIndex cs k checksummedAddress 0 MAX_INDEX with
      | some index => .ok (st.hdPath ++ "/" ++ toString index)
      | none => .error (.error "Unknown address")

/-- Stateful reading of `_pathFromAddress`: the method body contains no
assignment to `this`, so the session is returned unchanged alongside the
resolved path. -/
def pathFromAddressSt (cs : String → String) (st : KState) (address : String) :
    Except JsErr (String × KState) :=
  (pathFromAddress cs st address).map (fun p => (p, st))

/-- The for-loop of `addAccounts` (lines 90–96), one recursive call per
index: derive the address (a TypeError when `hdk` is `null`), append it
to `accounts` when not already present, and set `page` to 0. -/
def addAccountsGo (cs : String → String) (hdk : Option HDK) :
    List Nat → List String → Int → Except JsErr (List String × Int)
  | [], accounts, page => .ok (accounts, page)
  | i :: rest, accounts, page =>
    match hdk with
    | none =>
      let _ := page
      .error (.typeError nullDeriveMsg)
    | some k =>
      let address := cs ("0x" ++ k.addrAt pathBase i)
      let accounts1 := if address ∈ accounts then accounts else accounts ++ [address]
      addAccountsGo cs hdk rest accounts1 0

/-- Source lines 83–103: `addAccounts(n)` first awaits `unlock()` and then
runs the derivation loop over the index range
`[unlockedAccount, unlockedAccount + n)`, resolving with the updated
`accounts`.  The loop never writes to `paths`. -/
def addAccounts (cs : String → String) (st : KState) (resp : XPubResult) (n : Nat) :
    Except JsErr (List String × KState) :=
  match unlock st resp with
  | .error e => .error e
  | .ok (_, st1) =>
    match addAccountsGo cs st1.hdk (List.range' st1.unlockedAccount n) st1.accounts st1.page with
    | .error e => .error e
    | .ok (accounts, page) =>
      .ok (accounts, { st1 with accounts := accounts, page := page })

/-- Cursor update performed by `__getPage` before it unlocks and derives
the page rows (lines 118–123): add the increment, then clamp the result
to a minimum of 1. -/
def getPageCursor (st : KState) (increment : Int) : KState :=
  let p := st.page + increment
  if p ≤ 0 then { st with page := 1 } else { st with page := p }

/-- Source lines 105–108: `getFirstPage` resets `page` to 0 and then pages
forward by one. -/
def getFirstPageCursor (st : KState) : KState :=
  getPageCursor { st with page := 0 } 1

/-- Source lines 110–112: `getNextPage`. -/
def getNextPageCursor (st : KState) : KState :=
  getPageCursor st 1

/-- Source lines 114–116: `getPreviousPage`. -/
def getPreviousPageCursor (st : KState) : KState :=
  getPageCursor st (-1)

/-- Source lines 150–156: `getAccounts` asks the device for the address of
the fixed `hdPath` (`devAddr` abstracts the awaited
`SecuxETH.getAddress(this.device, this.hdPath)`), overwrites
`this.accounts` with that single address, and resolves with a copy of the
overwritten list. -/
def getAccounts (st : KState) (devAddr : String) : KState × List String :=
  let st1 := { st with accounts := [devAddr] }
  (st1, st1.accounts)

/-- Semantic transaction fields of `tx.toJSON()` forwarded to the device
(lines 171–187); their encodings are opaque to the keyring. -/
structure TxJson where
  chainId : String
  nonce : String
  maxPriorityFeePerGas : String
  maxFeePerGas : String
  gasLimit : String
  -- `to` in the source JSON (`to` is a Lean keyword)
  toAddr : String
  value : String
  accessList : List String
  data : String
  deriving DecidableEq

/-- Request issued to `SecuxETH.signTransaction` (lines 174–188): the
derivation path argument plus the forwarded semantic fields. -/
structure EthSignRequest where
  path : String
  chainId : String
  nonce : String
  maxPriorityFeePerGas : String
  maxFeePerGas : String
  gasLimit : String
  -- `to` in the source JSON (`to` is a Lean keyword)
  toAddr : String
  value : String
  accessList : List String
  data : String
  deriving DecidableEq

/-- Fulfilled device response carrying the raw 65-byte signature, modeled
as a byte list. -/
structure SignResponse where
  signature : List Nat
  deriving DecidableEq

/-- Signed artifact rebuilt by `TransactionFactory.fromTxData` from the
caller's fields and the split signature components, frozen (lines
190–197). -/
structure SignedTxArtifact where
  fields : TxJson
  r : List Nat
  s : List Nat
  v : List Nat
  frozen : Bool
  deriving DecidableEq

/-- Lines 190–197: split the raw signature into `r` (bytes 0–31), `s`
(bytes 32–63) and `v` (the remainder) and rebuild the frozen artifact. -/
def signedArtifact (tx : TxJson) (resp : SignResponse) : SignedTxArtifact :=
  { fields := tx
    r := resp.signature.take 32
    s := (resp.signature.drop 32).take 32
    v := resp.signature.drop 64
    frozen := true }

/-- Models `ethUtil.isHexPrefixed`: does the string start with `0x`? -/
def isHexPrefixedStr (str : String) : Bool :=
  match str.data with
  | '0' :: 'x' :: _ => true
  | _ => false

/-- Models `ethUtil.addHexPrefix`. -/
def addHexPfx (str : String) : String :=
  if isHexPrefixedStr str then str else "0x" ++ str

/-- Error message thrown on line 211. -/
def signerMismatchMsg : String :=
  "signature doesn\x27t match the right address"

/-- Source lines 170–215: `signTransaction(address, tx)`.  The result
pairs the request issued to the device with the call's outcome.  Note the
request's path argument is `this.hdPath`; `_pathFromAddress` is never
consulted.  `recoverSender` abstracts
`newOrMutatedTx.getSenderAddress().toString("hex")`.  The recovered
sender is `0x`-prefixed, checksummed, and compared with the checksummed
address argument; a mismatch throws and discards the artifact. -/
def signTransactionRun (cs : String → String) (recoverSender : SignedTxArtifact → String)
    (st : KState) (address : String) (tx : TxJson) (resp : SignResponse) :
    EthSignRequest × Except JsErr SignedTxArtifact :=
  let request : EthSignRequest :=
    { path := st.hdPath
      chainId := tx.chainId
      nonce := tx.nonce
      maxPriorityFeePerGas := tx.maxPriorityFeePerGas
      maxFeePerGas := tx.maxFeePerGas
      gasLimit := tx.gasLimit
      toAddr := tx.toAddr
      value := tx.value
      accessList := tx.accessList
      data := tx.data }
  let newOrMutatedTx := signedArtifact tx resp
  let addressSignedWith := cs (addHexPfx (recoverSender newOrMutatedTx))
  let correctAddress := cs address
  if addressSignedWith ≠ correctAddress then
    (request, .error (.error signerMismatchMsg))
  else
    (request, .ok newOrMutatedTx)

/-- Device signing call as scheduled by `signPersonalMessage`: the
`setTimeout` delay in milliseconds, the resolved path argument and the
message argument of `SecuxETH.signMessage`. -/
structure ScheduledSign where
  delayMs : Nat
  path : String
  message : String
  deriving DecidableEq

/-- Outcome of `signPersonalMessage` up to the issuing of its device
call: the promise is rejected when `unlock` rejects; when
`_pathFromAddress` throws inside the `setTimeout` callback the exception
is unhandled and the promise never settles (`hung`); otherwise the device
call is scheduled. -/
inductive SpmOutcome where
  | rejected (e : JsErr)
  | hung (e : JsErr)
  | scheduled (call : ScheduledSign)
  deriving DecidableEq

/-- Line 252: the `setTimeout` delay chosen from the unlock status. -/
def popupDelay (status : String) : Nat :=
  if status = "just unlocked" then DELAY_BETWEEN_POPUPS else 0

/-- Source lines 222–259: `signPersonalMessage(withAccount, message)` up
to the issuing of its device call.  After `unlock()` resolves, the device
call `SecuxETH.signMessage(device, _pathFromAddress(withAccount),
message)` is scheduled with the status-dependent delay of line 252; an
`unlock` rejection is wrapped by the outer `.catch` (line 256). -/
def signPersonalMessage (cs : String → String) (st : KState) (resp : XPubResult)
    (withAccount message : String) : SpmOutcome :=
  match unlock st resp with
  | .error e => .rejected (.error (jsOrStr (some (jsErrToString e)) "Unknown error"))
  | .ok (status, st1) =>
    match pathFromAddress cs st1 withAccount with
    | .error e => .hung e
    | .ok path =>
      .scheduled { delayMs := popupDelay status, path := path, message := message }

/-! Concrete fixtures used by witnesses and counterexamples. -/

/-- Test key material with a deterministic fake derivation: the address at
index `i` is the bare hex string `a` followed by the decimal index. -/
def kW : HDK :=
  { publicKey := some "aa", chainCode := some "bb", addrAt := fun _ i => "a" ++ toString i }

/-- Successful handshake payload used by concrete scenarios. -/
def payloadW : XPubPayload := { publicKey := "aa", chainCode := "bb", error := none }

/-- Successful handshake response used by concrete scenarios. -/
def respW : XPubResult := .fulfilled true payloadW

/-- Unlocked session holding path index 2 for the address `0xBb`. -/
def stUaW : KState :=
  { initialState with hdPath := hdPathString, paths := [("0xBb", 2)], hdk := some kW }

/-- The same session before unlock: key material present but without its
public key, so `isUnlocked` is false. -/
def stLkW : KState :=
  { stUaW with hdk := some { kW with publicKey := none } }

/-- Session resulting from a fresh successful unlock of `stLkW`. -/
def stJuW : KState :=
  { stLkW with hdk := some { kW with publicKey := some "aa", chainCode := some "bb" } }

/-- Concrete transaction fields used by signing scenarios. -/
def txW : TxJson :=
  { chainId := "1", nonce := "0", maxPriorityFeePerGas := "1", maxFeePerGas := "2"
    gasLimit := "21000", toAddr := "0xdead", value := "7", accessList := [], data := "0x" }

/-- Concrete 65-byte device signature used by signing scenarios. -/
def respSigW : SignResponse := { signature := List.replicate 65 1 }

/-! Claims. -/

/-- Claim C10: once any page has been requested the cursor is always at
least 1 — `getNextPage` advances `page` by one, `getPreviousPage`
decrements it clamped to a minimum of 1 (so repeated calls never drive it
below 1), and `getFirstPage` resets it to 1. -/
theorem page_cursor_floor (st : KState) (h : 0 ≤ st.page) :
    (getNextPageCursor st).page = st.page + 1 ∧
    (getPreviousPageCursor st).page = max 1 (st.page - 1) ∧
    (getFirstPageCursor st).page = 1 ∧
    1 ≤ (getNextPageCursor st).page ∧
    1 ≤ (getPreviousPageCursor st).page ∧
    1 ≤ (getFirstPageCursor st).page := by
  refine ⟨?_, ?_, ?_, ?_, ?_, ?_⟩ <;>
    simp only [getNextPageCursor, getPreviousPageCursor, getFirstPageCursor, getPageCursor] <;>
    split_ifs <;> simp_all <;> omega

/-- Witness for C10: the pagination cursor behavior evaluated on a
session whose page is 2. -/
theorem page_cursor_floor_witness :
    0 ≤ ({ initialState with page := 2 } : KState).page ∧
    (getPreviousPageCursor { initialState with page := 2 }).page =
      max 1 (({ initialState with page := 2 } : KState).page - 1) ∧
    1 ≤ (getNextPageCursor { initialState with page := 2 }).page :=
  ⟨by decide, (page_cursor_floor _ (by decide)).2.1, (page_cursor_floor _ (by decide)).2.2.2.1⟩

/-- Claim C9: the device signing call of `signPersonalMessage` is
scheduled after exactly `DELAY_BETWEEN_POPUPS` milliseconds when the
preceding `unlock()` resolved with `"just unlocked"`, and after zero
milliseconds when it resolved with `"already unlocked"`. -/
theorem signPersonalMessage_popup_delay (cs : String → String) (st : KState)
    (resp : XPubResult) (acc msg status : String) (st1 : KState) (call : ScheduledSign)
    (hu : unlock st resp = .ok (status, st1))
    (hs : signPersonalMessage cs st resp acc msg = .scheduled call) :
    (status = "just unlocked" → call.delayMs = DELAY_BETWEEN_POPUPS) ∧
    (status = "already unlocked" → call.delayMs = 0) := by
  have key : signPersonalMessage cs st resp acc msg =
      (match pathFromAddress cs st1 acc with
        | .error e => SpmOutcome.hung e
        | .ok path =>
          SpmOutcome.scheduled { delayMs := popupDelay status, path := path, message := msg }) := by
    unfold signPersonalMessage
    rw [hu]
  rw [key] at hs
  cases hp : pathFromAddress cs st1 acc with
  | error e =>
    rw [hp] at hs
    exact absurd hs (fun h => SpmOutcome.noConfusion h)
  | ok p =>
    rw [hp] at hs
    have hs2 : SpmOutcome.scheduled
        { delayMs := popupDelay status, path := p, message := msg } =
        SpmOutcome.scheduled call := hs
    injection hs2 with h2
    rw [← h2]
    refine ⟨fun hj => ?_, fun ha => ?_⟩
    · subst hj
      exact rfl
    · subst ha
      unfold popupDelay
      rw [if_neg (by decide)]

/-- Witness for C9: an already-unlocked session schedules the device call
with zero delay, and a freshly unlocked session schedules it with the
full inter-popup delay. -/
theorem signPersonalMessage_popup_delay_witness :
    unlock stUaW respW = .ok ("already unlocked", stUaW) ∧
    signPersonalMessage (fun a => a) stUaW respW "0xBb" "m" =
      .scheduled { delayMs := 0, path := hdPathString ++ "/2", message := "m" } ∧
    ({ delayMs := 0, path := hdPathString ++ "/2", message := "m" } : ScheduledSign).delayMs = 0 ∧
    unlock stLkW respW = .ok ("just unlocked", stJuW) ∧
    signPersonalMessage (fun a => a) stLkW respW "0xBb" "m" =
      .scheduled { delayMs := DELAY_BETWEEN_POPUPS, path := hdPathString ++ "/2", message := "m" } ∧
    ({ delayMs := DELAY_BETWEEN_POPUPS, path := hdPathString ++ "/2",
        message := "m" } : ScheduledSign).delayMs = DELAY_BETWEEN_POPUPS :=
  ⟨rfl, rfl,
   (signPersonalMessage_popup_delay (fun a => a) stUaW respW "0xBb" "m"
      "already unlocked" stUaW _ rfl rfl).2 rfl,
   rfl, rfl,
   (signPersonalMessage_popup_delay (fun a => a) stLkW respW "0xBb" "m"
      "just unlocked" stJuW _ rfl rfl).1 rfl⟩

/-- Claim C1: whenever `signTransaction` obtains a device response it
recovers the signer address of the reconstructed artifact and compares it
checksum-normalized against the address argument; a returned artifact
always recovers to the requested address, and on a mismatch the call
fails with the signer-mismatch error and returns no artifact. -/
theorem signTransaction_signer_invariant (cs : String → String)
    (recoverSender : SignedTxArtifact → String) (st : KState) (address : String)
    (tx : TxJson) (resp : SignResponse) :
    (∀ art, (signTransactionRun cs recoverSender st address tx resp).2 = .ok art →
      cs (addHexPfx (recoverSender art)) = cs address) ∧
    (cs (addHexPfx (recoverSender (signedArtifact tx resp))) ≠ cs address →
      (signTransactionRun cs recoverSender st address tx resp).2 =
        .error (.error signerMismatchMsg)) := by
  unfold signTransactionRun
  by_cases h : cs (addHexPfx (recoverSender (signedArtifact tx resp))) = cs address
  · refine ⟨?_, fun hne => absurd h hne⟩
    intro art hart
    rw [if_neg (not_not_intro h)] at hart
    simp only [Except.ok.injEq] at hart
    rw [← hart]
    exact h
  · refine ⟨?_, fun _ => by rw [if_pos h]⟩
    intro art hart
    rw [if_pos h] at hart
    simp at hart

/-- Witness for C1: with an identity checksum and a recovery function
returning `aa`, signing for `0xaa` yields an artifact whose recovered
signer equals the requested address, while signing for `0xZZ` fails with
the signer-mismatch error. -/
theorem signTransaction_signer_invariant_witness :
    (fun a => a) (addHexPfx ((fun _ => "aa") (signedArtifact txW respSigW))) =
      (fun a => a) "0xaa" ∧
    (signTransactionRun (fun a => a) (fun _ => "aa") initialState "0xZZ" txW respSigW).2 =
      .error (.error signerMismatchMsg) :=
  ⟨(signTransaction_signer_invariant (fun a => a) (fun _ => "aa") initialState "0xaa"
      txW respSigW).1 (signedArtifact txW respSigW) rfl,
   (signTransaction_signer_invariant (fun a => a) (fun _ => "aa") initialState "0xZZ"
      txW respSigW).2 (by decide)⟩

/-- Session with a nonempty path index and nonzero page, used to exercise
the serialization round trip. -/
def stC3 : KState :=
  { hdPath := hdPathString, accounts := ["0xAb"], page := 2, perPage := 5
    unlockedAccount := 1, paths := [("0xAb", 7)], hdk := none }

/-- Counterexample for C3: the round trip does not reproduce `pathIndex`
— `deserialize` never reads the snapshot's `paths`, so a session whose
path index holds an entry comes back with an empty one. -/
theorem roundTrip_paths_not_restored_cex :
    (roundTrip stC3).paths = [] ∧
    stC3.paths = [("0xAb", 7)] ∧
    (((roundTrip stC3).paths == stC3.paths) = false) :=
  ⟨rfl, rfl, rfl⟩

/-- Claim C3 (amended): `deserialize(serialize(s))` on a fresh keyring
reproduces `knownAccounts`, `page` and (nonzero) `perPage` exactly and
yields a locked session, but `pathIndex` is not restored: it is reset to
empty, as is `unlockedAccountCursor`. -/
theorem roundTrip_restores_bookkeeping_locked (st : KState) (h : st.perPage ≠ 0) :
    (roundTrip st).accounts = st.accounts ∧
    (roundTrip st).page = st.page ∧
    (roundTrip st).perPage = st.perPage ∧
    (roundTrip st).paths = [] ∧
    (roundTrip st).unlockedAccount = 0 ∧
    (roundTrip st).hdk = none ∧
    isUnlocked (roundTrip st) = false := by
  have hpage : jsOrInt (some st.page) 0 = st.page := by
    show (if st.page = 0 then (0 : Int) else st.page) = st.page
    split_ifs with hz
    · exact hz.symm
    · rfl
  have hper : jsOrInt (some st.perPage) 5 = st.perPage := by
    show (if st.perPage = 0 then (5 : Int) else st.perPage) = st.perPage
    split_ifs with hz
    · exact absurd hz h
    · rfl
  exact ⟨rfl, hpage, hper, rfl, rfl, rfl, rfl⟩

/-- Witness for C3's amended claim at the concrete session `stC3`. -/
theorem roundTrip_restores_bookkeeping_locked_witness :
    stC3.perPage = 5 ∧
    (roundTrip stC3).accounts = stC3.accounts ∧
    (roundTrip stC3).page = stC3.page ∧
    isUnlocked (roundTrip stC3) = false :=
  ⟨rfl, (roundTrip_restores_bookkeeping_locked stC3 (by decide)).1,
   (roundTrip_restores_bookkeeping_locked stC3 (by decide)).2.1,
   (roundTrip_restores_bookkeeping_locked stC3 (by decide)).2.2.2.2.2.2⟩

/-- Device-reported failure payload that carries no message. -/
def payloadNoMsgW : XPubPayload := { publicKey := "", chainCode := "", error := none }

/-- Counterexample for C6: a device-reported failure without a message
and a transport rejection without a reason produce the very same error
value, so the transport failure kind is not distinguishable from the
device-reported one. -/
theorem unlock_error_kinds_indistinguishable_cex :
    unlock initialState (.fulfilled false payloadNoMsgW) = .error (.error "Unknown error") ∧
    unlock initialState (.rejectedTransport none) = .error (.error "Unknown error") ∧
    unlock initialState (.fulfilled false payloadNoMsgW) =
      unlock initialState (.rejectedTransport none) :=
  ⟨rfl, rfl, rfl⟩

/-- Claim C6 (amended): on a device-reported failure `unlock` rejects
with a generic `Error` carrying the payload's message or the fallback
`Unknown error`; on a transport failure it rejects with a generic `Error`
wrapping the reason's string description or the same fallback.  Both
failure kinds use the same error class and coincide when neither carries
a message. -/
theorem unlock_failure_messages (st : KState) (payload : XPubPayload) (e : Option JsErr)
    (h : isUnlocked st = false) :
    unlock st (.fulfilled false payload) =
      .error (.error (jsOrStr payload.error "Unknown error")) ∧
    unlock st (.rejectedTransport e) =
      .error (.error (jsOrStr (e.map jsErrToString) "Unknown error")) ∧
    (payload.error = none → e = none →
      unlock st (.fulfilled false payload) = unlock st (.rejectedTransport e)) := by
  refine ⟨by simp [unlock, h], by simp [unlock, h], fun hp he => ?_⟩
  simp [unlock, h, hp, he]

/-- Witness for C6's amended claim on a fresh locked session. -/
theorem unlock_failure_messages_witness :
    isUnlocked initialState = false ∧
    unlock initialState (.fulfilled false payloadNoMsgW) = .error (.error "Unknown error") ∧
    unlock initialState (.rejectedTransport (some (.error "usb gone"))) =
      .error (.error "Error: usb gone") :=
  ⟨rfl,
   (unlock_failure_messages initialState payloadNoMsgW (some (.error "usb gone")) rfl).1,
   (unlock_failure_messages initialState payloadNoMsgW (some (.error "usb gone")) rfl).2.1⟩

/-- Session that registers address `0xBb` at derivation index 3. -/
def stC2 : KState :=
  { initialState with hdPath := hdPathString, paths := [("0xBb", 3)], hdk := some kW }

/-- Claim C2 (code bug): `signTransaction` issues its device signing
request for the fixed session `hdPath` and never consults the per-address
resolution — even when the requested address is registered at index 3,
the request's path is the bare `hdPath`, although `_pathFromAddress`
resolves that same address to `hdPath/3`. -/
theorem signTransaction_fixed_path_bug :
    (signTransactionRun (fun a => a) (fun _ => "aa") stC2 "0xBb" txW respSigW).1.path =
      hdPathString ∧
    pathFromAddress (fun a => a) stC2 "0xBb" = .ok (hdPathString ++ "/3") ∧
    ((hdPathString == hdPathString ++ "/3") = false) :=
  ⟨rfl, rfl, rfl⟩

/-- Session already holding two discovered accounts. -/
def stC8 : KState := { initialState with accounts := ["0xAa", "0xBb"] }

/-- Claim C8 (code bug): `getAccounts` structurally mutates the session —
it overwrites `knownAccounts` with the single device-reported address and
returns that singleton instead of the stored discovery-ordered
sequence. -/
theorem getAccounts_mutation_bug :
    (getAccounts stC8 "0xDd").1.accounts = ["0xDd"] ∧
    stC8.accounts = ["0xAa", "0xBb"] ∧
    (getAccounts stC8 "0xDd").2 = ["0xDd"] ∧
    (((getAccounts stC8 "0xDd").1.accounts == stC8.accounts) = false) ∧
    (((getAccounts stC8 "0xDd").2 == stC8.accounts) = false) :=
  ⟨rfl, rfl, rfl, rfl, rfl⟩

/-- The session state of every freshly constructed keyring,
`new SecuxKeyring({})`: in particular `hdk` is `null`. -/
def constructedState : KState := newKeyring {}

/-- Claim C4 (code bug): from the constructed locked state (`hdk` is
`null`, the `hdkey` import being commented out), a successful handshake
makes `unlock` reject with an error wrapping the TypeError thrown by the
assignment `this.hdk.publicKey = ...` instead of resolving
`"just unlocked"`; no public key material is stored, the state is
unchanged, and a second `unlock` call therefore issues a second
handshake, for two handshakes across the two calls. -/
theorem unlock_null_hdk_bug :
    constructedState.hdk = none ∧
    unlock constructedState respW = .error (.error ("TypeError: " ++ nullSetPublicKeyMsg)) ∧
    unlockDeviceCalls constructedState + unlockDeviceCalls constructedState = 2 :=
  ⟨rfl, rfl, rfl⟩

/-- If no index in the remaining scan window derives the target address,
the scan returns `none`. -/
theorem scanForIndex_eq_none (cs : String → String) (k : HDK) (target : String) :
    ∀ (fuel i : Nat),
      (∀ j, i ≤ j → j < i + fuel → target ≠ cs ("0x" ++ k.addrAt pathBase j)) →
      scanForIndex cs k target i fuel = none := by
  intro fuel
  induction fuel with
  | zero => intro i _; rfl
  | succ m ih =>
    intro i hnone
    show (if target = cs ("0x" ++ k.addrAt pathBase i) then some i
      else scanForIndex cs k target (i + 1) m) = none
    rw [if_neg (hnone i le_rfl (by omega))]
    exact ih (i + 1) (fun j hj hj2 => hnone j (by omega) (by omega))

/-- The scan returns the first matching index of its window. -/
theorem scanForIndex_eq_some (cs : String → String) (k : HDK) (target : String) :
    ∀ (fuel i j : Nat), i ≤ j → j < i + fuel →
      target = cs ("0x" ++ k.addrAt pathBase j) →
      (∀ l, i ≤ l → l < j → target ≠ cs ("0x" ++ k.addrAt pathBase l)) →
      scanForIndex cs k target i fuel = some j := by
  intro fuel
  induction fuel with
  | zero => intro i j h1 h2 _ _; omega
  | succ m ih =>
    intro i j h1 h2 hm hfirst
    show (if target = cs ("0x" ++ k.addrAt pathBase i) then some i
      else scanForIndex cs k target (i + 1) m) = some j
    by_cases hi : target = cs ("0x" ++ k.addrAt pathBase i)
    · rw [if_pos hi]
      have hji : j = i := by
        by_contra hne
        exact (hfirst i le_rfl (by omega)) hi
      rw [hji]
    · rw [if_neg hi]
      have hij : i ≠ j := fun hh => hi (hh ▸ hm)
      exact ih (i + 1) j (by omega) (by omega) hm (fun l h3 h4 => hfirst l (by omega) h4)

/-- Key material whose fake derivation yields addresses `c0`, `c1`, …. -/
def k7 : HDK :=
  { publicKey := some "aa", chainCode := some "bb", addrAt := fun _ i => "c" ++ toString i }

/-- Unlocked session with an empty path index (as after deserialization). -/
def stC7 : KState :=
  { initialState with hdPath := hdPathString, hdk := some k7 }

/-- Counterexample for C7: resolving `0xc3` succeeds through the bounded
scan (the derived address at index 3 matches), yet the session — its
`pathIndex` included — is returned unchanged: the found index is not
cached. -/
theorem pathFromAddress_no_caching_cex :
    pathFromAddressSt (fun a => a) stC7 "0xc3" = .ok (hdPathString ++ "/3", stC7) ∧
    stC7.paths = [] :=
  ⟨rfl, rfl⟩

/-- Claim C7 (amended): `_pathFromAddress` checksum-normalizes its input
and looks it up in `pathIndex`; on a hit it returns `hdPath/index`; on a
miss (with key material present) it scans indices `0, …, MAX_INDEX - 1`
and returns `hdPath/i` for the first matching index `i`, failing with the
`Unknown address` error when the scan exhausts without a match — but it
never caches the found index: the session, `pathIndex` included, is
returned unchanged. -/
theorem pathFromAddress_spec_amended (cs : String → String) (st : KState)
    (address : String) (k : HDK) (hk : st.hdk = some k) :
    (∀ p st1, pathFromAddressSt cs st address = .ok (p, st1) → st1 = st) ∧
    (∀ i, st.paths.lookup (cs address) = some i →
      pathFromAddressSt cs st address = .ok (st.hdPath ++ "/" ++ toString i, st)) ∧
    (st.paths.lookup (cs address) = none →
      (∀ i, i < MAX_INDEX → cs address ≠ cs ("0x" ++ k.addrAt pathBase i)) →
      pathFromAddressSt cs st address = .error (.error "Unknown address")) ∧
    (∀ i, st.paths.lookup (cs address) = none →
      i < MAX_INDEX →
      cs address = cs ("0x" ++ k.addrAt pathBase i) →
      (∀ j, j < i → cs address ≠ cs ("0x" ++ k.addrAt pathBase j)) →
      pathFromAddressSt cs st address = .ok (st.hdPath ++ "/" ++ toString i, st)) := by
  refine ⟨?_, ?_, ?_, ?_⟩
  · intro p st1 hok
    unfold pathFromAddressSt at hok
    cases hres : pathFromAddress cs st address with
    | error e =>
      rw [hres] at hok
      exact Except.noConfusion
        (show (Except.error e : Except JsErr (String × KState)) = .ok (p, st1) from hok)
    | ok q =>
      rw [hres] at hok
      have hok2 : (Except.ok (q, st) : Except JsErr (String × KState)) = .ok (p, st1) := hok
      injection hok2 with h3
      exact (congrArg Prod.snd h3).symm
  · intro i hi
    simp [pathFromAddressSt, pathFromAddress, hi, Except.map]
  · intro hmiss hnone
    have hscan := scanForIndex_eq_none cs k (cs address) MAX_INDEX 0
      (fun j _ hj => hnone j (by omega))
    simp [pathFromAddressSt, pathFromAddress, hmiss, hk, hscan, Except.map]
  · intro i hmiss hlt hmatch hfirst
    have hscan := scanForIndex_eq_some cs k (cs address) MAX_INDEX 0 i (by omega) (by omega)
      hmatch (fun l _ hl => hfirst l hl)
    simp [pathFromAddressSt, pathFromAddress, hmiss, hk, hscan, Except.map]

/-- Witness for C7's amended claim: a path-index hit at index 3, and a
scan-resolution of `0xc3` at index 3 that leaves the session unchanged. -/
theorem pathFromAddress_spec_amended_witness :
    stC2.paths.lookup ((fun a => a) "0xBb") = some 3 ∧
    pathFromAddressSt (fun a => a) stC2 "0xBb" = .ok (stC2.hdPath ++ "/" ++ toString 3, stC2) ∧
    pathFromAddressSt (fun a => a) stC7 "0xc3" =
      .ok (stC7.hdPath ++ "/" ++ toString 3, stC7) :=
  ⟨rfl,
   (pathFromAddress_spec_amended (fun a => a) stC2 "0xBb" kW rfl).2.1 3 rfl,
   (pathFromAddress_spec_amended (fun a => a) stC7 "0xc3" k7 rfl).2.2.2 3 rfl (by decide)
     rfl (by decide)⟩

/-- A successful `unlock` leaves every bookkeeping field unchanged and at
most replaces the public key and chain code of the already-present key
material; the derivation function is preserved. -/
theorem unlock_ok_fields (st : KState) (resp : XPubResult) (status : String) (st1 : KState)
    (h : unlock st resp = .ok (status, st1)) :
    st1.accounts = st.accounts ∧ st1.paths = st.paths ∧ st1.page = st.page ∧
    st1.perPage = st.perPage ∧ st1.unlockedAccount = st.unlockedAccount ∧
    ∃ k k1, st.hdk = some k ∧ st1.hdk = some k1 ∧ k1.addrAt = k.addrAt := by
  unfold unlock at h
  by_cases hu : isUnlocked st = true
  · rw [if_pos hu] at h
    have h2 : (Except.ok ("already unlocked", st) : Except JsErr (String × KState)) =
        .ok (status, st1) := h
    injection h2 with h3
    have hst : st = st1 := congrArg Prod.snd h3
    subst hst
    refine ⟨rfl, rfl, rfl, rfl, rfl, ?_⟩
    unfold isUnlocked at hu
    cases hh : st.hdk with
    | none => rw [hh] at hu; exact absurd hu (by simp)
    | some k => exact ⟨k, k, rfl, rfl, rfl⟩
  · rw [if_neg hu] at h
    cases resp with
    | rejectedTransport e =>
      exact Except.noConfusion
        (show (Except.error (JsErr.error (jsOrStr (e.map jsErrToString) "Unknown error")) :
          Except JsErr (String × KState)) = .ok (status, st1) from h)
    | fulfilled success payload =>
      have h2 : (if success = true then
          (match st.hdk with
            | none => (Except.error (JsErr.error (jsOrStr
                (some (jsErrToString (.typeError nullSetPublicKeyMsg))) "Unknown error")) :
                Except JsErr (String × KState))
            | some k => .ok ("just unlocked",
                { st with hdk := some { k with
                    publicKey := some payload.publicKey
                    chainCode := some payload.chainCode } }))
          else .error (.error (jsOrStr payload.error "Unknown error"))) = .ok (status, st1) := h
      by_cases hs : success = true
      · rw [if_pos hs] at h2
        cases hh : st.hdk with
        | none =>
          rw [hh] at h2
          simp at h2
        | some k =>
          rw [hh] at h2
          have h3 : (Except.ok ("just unlocked",
              { st with hdk := some { k with
                  publicKey := some payload.publicKey
                  chainCode := some payload.chainCode } }) :
              Except JsErr (String × KState)) = .ok (status, st1) := h2
          injection h3 with h4
          have hst : ({ st with hdk := some { k with
              publicKey := some payload.publicKey
              chainCode := some payload.chainCode } } : KState) = st1 :=
            congrArg Prod.snd h4
          subst hst
          exact ⟨rfl, rfl, rfl, rfl, rfl, k, { k with publicKey := some payload.publicKey, chainCode := some payload.chainCode }, rfl, rfl, rfl⟩
      · rw [if_neg hs] at h2
        simp at h2

/-- Loop invariants of the `addAccounts` loop: the result extends the
input account list, introduces no duplicates, resets the page to 0
exactly when the index range is nonempty, contains the derived address of
every index of the range, and every resulting account is either an input
account or an address derived from an index of the range. -/
theorem addAccountsGo_spec (cs : String → String) (hdk : Option HDK) :
    ∀ (idxs : List Nat) (accounts : List String) (page : Int) (accs : List String) (pg : Int),
      addAccountsGo cs hdk idxs accounts page = .ok (accs, pg) →
      (∃ t, accs = accounts ++ t) ∧
      (accounts.Nodup → accs.Nodup) ∧
      (idxs = [] → accs = accounts ∧ pg = page) ∧
      (idxs ≠ [] → pg = 0) ∧
      (∀ kk, hdk = some kk → ∀ j ∈ idxs, cs ("0x" ++ kk.addrAt pathBase j) ∈ accs) ∧
      (∀ a ∈ accs, a ∈ accounts ∨ ∃ k i, hdk = some k ∧ i ∈ idxs ∧
        a = cs ("0x" ++ k.addrAt pathBase i)) := by
  intro idxs
  induction idxs with
  | nil =>
    intro accounts page accs pg h
    have h2 : (Except.ok (accounts, page) : Except JsErr (List String × Int)) = .ok (accs, pg) := h
    injection h2 with h3
    have ha : accounts = accs := congrArg Prod.fst h3
    have hp : page = pg := congrArg Prod.snd h3
    subst ha
    subst hp
    exact ⟨⟨[], (List.append_nil _).symm⟩, fun hn => hn, fun _ => ⟨rfl, rfl⟩,
      fun hne => absurd rfl hne, fun kk _ j hj => absurd hj (List.not_mem_nil j),
      fun a haIn => .inl haIn⟩
  | cons i rest ih =>
    intro accounts page accs pg h
    cases hdk with
    | none =>
      exact Except.noConfusion
        (show (Except.error (JsErr.typeError nullDeriveMsg) : Except JsErr (List String × Int)) =
          .ok (accs, pg) from h)
    | some k =>
      have h2 : addAccountsGo cs (some k) rest
          (if cs ("0x" ++ k.addrAt pathBase i) ∈ accounts then accounts
            else accounts ++ [cs ("0x" ++ k.addrAt pathBase i)]) 0 = .ok (accs, pg) := h
      obtain ⟨⟨t, ht⟩, hnd, hnil, hnotnil, hcompl, hmem⟩ := ih _ 0 accs pg h2
      by_cases hc : cs ("0x" ++ k.addrAt pathBase i) ∈ accounts
      · rw [if_pos hc] at ht hnd hmem
        refine ⟨⟨t, ht⟩, hnd, fun hcontr => absurd hcontr (by simp), ?_, ?_, ?_⟩
        · intro _
          by_cases hr : rest = []
          · exact (hnil hr).2
          · exact hnotnil hr
        · intro kk hkk j hj
          injection hkk with hkEq
          subst hkEq
          rcases List.mem_cons.mp hj with hji | hjr
          · subst hji
            rw [ht]
            exact List.mem_append_left t hc
          · exact hcompl k rfl j hjr
        · intro a haIn
          rcases hmem a haIn with h5 | ⟨k', i', hk', hi', ha'⟩
          · exact .inl h5
          · exact .inr ⟨k', i', hk', List.mem_cons_of_mem i hi', ha'⟩
      · rw [if_neg hc] at ht hnd hmem
        refine ⟨⟨[cs ("0x" ++ k.addrAt pathBase i)] ++ t, by rw [ht, List.append_assoc]⟩,
          ?_, fun hcontr => absurd hcontr (by simp), ?_, ?_, ?_⟩
        · intro hn
          apply hnd
          rw [List.nodup_append]
          exact ⟨hn, List.nodup_singleton _,
            fun a ha1 ha2 => hc ((List.mem_singleton.mp ha2) ▸ ha1)⟩
        · intro _
          by_cases hr : rest = []
          · exact (hnil hr).2
          · exact hnotnil hr
        · intro kk hkk j hj
          injection hkk with hkEq
          subst hkEq
          rcases List.mem_cons.mp hj with hji | hjr
          · subst hji
            rw [ht]
            exact List.mem_append_left t
              (List.mem_append_right accounts (List.mem_singleton_self _))
          · exact hcompl k rfl j hjr
        · intro a haIn
          rcases hmem a haIn with h5 | ⟨k', i', hk', hi', ha'⟩
          · rcases List.mem_append.mp h5 with h6 | h6
            · exact .inl h6
            · exact .inr ⟨k, i, rfl, List.mem_cons_self i rest, List.mem_singleton.mp h6⟩
          · exact .inr ⟨k', i', hk', List.mem_cons_of_mem i hi', ha'⟩

/-- Claim C5 (amended): `addAccounts(n)` unlocks if needed, derives
addresses for the index range `[unlockedAccount, unlockedAccount + n)`,
appends each derived address not already present to `knownAccounts` —
every address derived from the range is in the result, the stored list is
only extended, and no duplicates are created — resets the page cursor to
its initial value 0 whenever the range is nonempty (with `n = 0` the loop
body never runs and the cursor is untouched), and resolves with the full
updated account list.  But it does NOT register the derived addresses in
`pathIndex`, which is left entirely unchanged, so an address of
`knownAccounts` need not have a `pathIndex` entry after the call. -/
theorem addAccounts_spec_amended (cs : String → String) (st : KState) (resp : XPubResult)
    (n : Nat) (accs : List String) (stF : KState)
    (h : addAccounts cs st resp n = .ok (accs, stF)) :
    stF.accounts = accs ∧
    stF.paths = st.paths ∧
    (∃ t, accs = st.accounts ++ t) ∧
    (st.accounts.Nodup → accs.Nodup) ∧
    (1 ≤ n → stF.page = 0) ∧
    (n = 0 → stF.page = st.page) ∧
    (∀ kk, st.hdk = some kk → ∀ i, st.unlockedAccount ≤ i → i < st.unlockedAccount + n →
      cs ("0x" ++ kk.addrAt pathBase i) ∈ accs) ∧
    (∀ a ∈ accs, a ∈ st.accounts ∨ ∃ k i, st.hdk = some k ∧
      st.unlockedAccount ≤ i ∧ i < st.unlockedAccount + n ∧
      a = cs ("0x" ++ k.addrAt pathBase i)) := by
  cases hu : unlock st resp with
  | error e =>
    have h2 : (Except.error e : Except JsErr (List String × KState)) = .ok (accs, stF) := by
      rw [← h]; unfold addAccounts; rw [hu]
    exact Except.noConfusion h2
  | ok pr =>
    obtain ⟨status, st1⟩ := pr
    obtain ⟨hacc, hpaths, hpage, hper, hcur, k, k1, hk, hk1, haddr⟩ :=
      unlock_ok_fields st resp status st1 hu
    have h2 : (match addAccountsGo cs st1.hdk (List.range' st1.unlockedAccount n)
        st1.accounts st1.page with
      | .error e => (Except.error e : Except JsErr (List String × KState))
      | .ok (accounts, page) =>
        .ok (accounts, { st1 with accounts := accounts, page := page })) = .ok (accs, stF) := by
      rw [← h]; unfold addAccounts; rw [hu]
    cases hgo : addAccountsGo cs st1.hdk (List.range' st1.unlockedAccount n)
        st1.accounts st1.page with
    | error e =>
      rw [hgo] at h2
      exact Except.noConfusion
        (show (Except.error e : Except JsErr (List String × KState)) = .ok (accs, stF) from h2)
    | ok pr2 =>
      obtain ⟨accs2, pg2⟩ := pr2
      rw [hgo] at h2
      have h3 : (Except.ok (accs2, { st1 with accounts := accs2, page := pg2 }) :
          Except JsErr (List String × KState)) = .ok (accs, stF) := h2
      injection h3 with h4
      have hA : accs2 = accs := congrArg Prod.fst h4
      subst hA
      have hS : ({ st1 with accounts := accs2, page := pg2 } : KState) = stF :=
        congrArg Prod.snd h4
      subst hS
      obtain ⟨⟨t, ht⟩, hnd, hnil, hnotnil, hcompl, hmem⟩ :=
        addAccountsGo_spec cs st1.hdk (List.range' st1.unlockedAccount n)
          st1.accounts st1.page accs2 pg2 hgo
      refine ⟨rfl, hpaths, ⟨t, by rw [← hacc]; exact ht⟩, ?_, ?_, ?_, ?_, ?_⟩
      · intro hstn
        exact hnd (by rw [hacc]; exact hstn)
      · intro h1n
        have hne : List.range' st1.unlockedAccount n ≠ [] :=
          (List.range'_ne_nil _).mpr (by omega)
        exact hnotnil hne
      · intro hn0
        subst hn0
        exact ((hnil (by simp)).2).trans hpage
      · intro kk hkk i hlow hhigh
        rw [hk] at hkk
        injection hkk with hkEq
        subst hkEq
        have hm : i ∈ List.range' st1.unlockedAccount n :=
          List.mem_range'_1.mpr ⟨by omega, by omega⟩
        have hin := hcompl k1 hk1 i hm
        rw [haddr] at hin
        exact hin
      · intro a haIn
        rcases hmem a haIn with h5 | ⟨k', i', hk', hi', ha'⟩
        · exact .inl (hacc ▸ h5)
        · right
          rw [hk1] at hk'
          injection hk' with hkk
          obtain ⟨hb1, hb2⟩ := List.mem_range'_1.mp hi'
          refine ⟨k, i', hk, by omega, by omega, ?_⟩
          rw [ha', ← hkk, haddr]

/-- Unlocked session used by the concrete `addAccounts` runs. -/
def stC5 : KState :=
  { initialState with hdPath := hdPathString, hdk := some kW }

/-- The same unlocked session but with the page cursor at 3. -/
def stC5p : KState := { stC5 with page := 3 }

/-- Counterexample for C5: `addAccounts(1)` on an unlocked session
derives and appends the address `0xa0` but registers nothing in
`pathIndex`, so the newly known account has no path entry — invariant
(a) fails right after the public operation.  Moreover `addAccounts(0)`
from page 3 leaves the page cursor at 3: the reset to the initial page
happens only inside the loop body, so an empty range resets nothing. -/
theorem addAccounts_no_pathIndex_cex :
    addAccounts (fun a => a) stC5 respW 1 =
      .ok (["0xa0"], { stC5 with accounts := ["0xa0"], page := 0 }) ∧
    ("0xa0" ∈ ({ stC5 with accounts := ["0xa0"], page := 0 } : KState).accounts) ∧
    ({ stC5 with accounts := ["0xa0"], page := 0 } : KState).paths.lookup "0xa0" = none ∧
    addAccounts (fun a => a) stC5p respW 0 =
      .ok ([], { stC5p with accounts := [], page := 3 }) ∧
    ({ stC5p with accounts := [], page := 3 } : KState).page = 3 :=
  ⟨rfl, by simp, rfl, rfl, rfl⟩

/-- Witness for C5's amended claim at the same concrete runs: the paths
stay unchanged, the page is reset for the nonempty range and kept for the
empty one, and the derived address of index 0 is in the result. -/
theorem addAccounts_spec_amended_witness :
    addAccounts (fun a => a) stC5 respW 1 =
      .ok (["0xa0"], { stC5 with accounts := ["0xa0"], page := 0 }) ∧
    ({ stC5 with accounts := ["0xa0"], page := 0 } : KState).paths = stC5.paths ∧
    ({ stC5 with accounts := ["0xa0"], page := 0 } : KState).page = 0 ∧
    ((fun a => a) ("0x" ++ kW.addrAt pathBase 0) ∈ (["0xa0"] : List String)) ∧
    ({ stC5p with accounts := [], page := 3 } : KState).page = stC5p.page :=
  ⟨rfl,
   (addAccounts_spec_amended (fun a => a) stC5 respW 1
     ["0xa0"] { stC5 with accounts := ["0xa0"], page := 0 } rfl).2.1,
   (addAccounts_spec_amended (fun a => a) stC5 respW 1
     ["0xa0"] { stC5 with accounts := ["0xa0"], page := 0 } rfl).2.2.2.2.1 (by decide),
   (addAccounts_spec_amended (fun a => a) stC5 respW 1
     ["0xa0"] { stC5 with accounts := ["0xa0"], page := 0 } rfl).2.2.2.2.2.2.1
     kW rfl 0 (by decide) (by decide),
   (addAccounts_spec_amended (fun a => a) stC5p respW 0
     [] { stC5p with accounts := [], page := 3 } rfl).2.2.2.2.2.1 rfl⟩

end Secux
